import Mathlib

/-!
# Verification of the WXR-to-PDF converter (`wxr-to-pdf.py`)

A shallow embedding of the transformation pipeline of `wxr-to-pdf.py`:
the WXR item/comment parser (`parse_wxr`), the content normalizer
(`replace_urls`, `replace_shortcode_captions`, `convert_to_paragraphs`,
`preprocess_comments`) and the document assembler (`create_pdf` /
`add_content` / `add_toc_entry`).

Python strings are modelled as `List Char` (wrapped in `String` at the
interfaces), XML element lookup results as `Option`, and Python
exceptions (`ValueError` from `datetime.strptime`, `AttributeError` from
`.text` / `.strftime` on `None`) as `Except String`.  The external
timezone library (`pytz` / `datetime.astimezone`) is modelled as an
environment function `TzEnv.astimezone`, since its arithmetic lives
outside the repository; everything else is executable and translated
from the source line by line.  Regex-based rewrites are embedded as
explicit left-to-right scanners; the regexes involved are literals with
non-greedy groups, whose Python matching semantics reduce to
leftmost-literal searches (each scanner is documented at its
definition).
-/

set_option maxHeartbeats 1000000
set_option maxRecDepth 100000

namespace WxrToPdf

/-! ## Basic string utilities (models of Python `str` primitives) -/

/-- Model of Python `str.strip()`: remove leading and trailing whitespace. -/
def pyStrip (l : List Char) : List Char :=
  ((l.dropWhile Char.isWhitespace).reverse.dropWhile Char.isWhitespace).reverse

/-- `splitFirst pat l` finds the leftmost occurrence of `pat` in `l` and
returns the part before it and the part after it (the basic step behind
leftmost regex-literal matching). -/
def splitFirst (pat : List Char) : List Char → Option (List Char × List Char)
  | [] => if pat.isEmpty then some ([], []) else none
  | c :: rest =>
    if pat.isPrefixOf (c :: rest) then some ([], (c :: rest).drop pat.length)
    else
      match splitFirst pat rest with
      | some (b, a) => some (c :: b, a)
      | none => none

/-- `isSubstr pat s`: `pat` occurs as a contiguous substring of `s`
(model of Python `re.search` on a regex-escaped literal). -/
def isSubstr (pat : List Char) : List Char → Bool
  | [] => pat.isEmpty
  | c :: rest => pat.isPrefixOf (c :: rest) || isSubstr pat rest

/-- Substring containment lifted to `String`. -/
def containsStr (s pat : String) : Bool := isSubstr pat.data s.data

theorem splitFirst_length {pat l b a} (h : splitFirst pat l = some (b, a)) :
    b.length + pat.length + a.length = l.length := by
  induction l generalizing b a with
  | nil =>
    unfold splitFirst at h
    split at h
    · rename_i hp
      simp only [Option.some.injEq, Prod.mk.injEq] at h
      obtain ⟨hb, ha⟩ := h
      simp [List.isEmpty_iff] at hp
      simp [← hb, ← ha, hp]
    · exact absurd h (by simp)
  | cons c rest ih =>
    unfold splitFirst at h
    split at h
    · rename_i hp
      simp only [Option.some.injEq, Prod.mk.injEq] at h
      obtain ⟨hb, ha⟩ := h
      have hpl : pat.length ≤ rest.length + 1 := by
        have := (List.isPrefixOf_iff_prefix.mp hp).length_le
        simpa using this
      subst hb ha
      simp [List.length_drop]
      omega
    · revert h
      cases hrec : splitFirst pat rest with
      | none => intro h; exact absurd h (by simp)
      | some p =>
        obtain ⟨b0, a0⟩ := p
        intro h
        simp only [Option.some.injEq, Prod.mk.injEq] at h
        obtain ⟨hb, ha⟩ := h
        have := ih hrec
        subst hb ha
        simp at this ⊢
        omega

theorem splitFirst_length_le {pat l b a} (h : splitFirst pat l = some (b, a)) :
    a.length ≤ l.length := by
  have := splitFirst_length h
  omega

/-! ## `convert_to_paragraphs` (lines 265-271)

```python
def convert_to_paragraphs(text):
    paragraphs = text.split('\n\n')
    paragraphs = [f'<p>{paragraph.strip()}</p>' for paragraph in paragraphs]
    return '\n'.join(paragraphs)
```
-/

/-- Model of Python `text.split('\n\n')`: split at each leftmost
non-overlapping occurrence of two consecutive newlines; always returns at
least one block (`''.split('\n\n') == ['']`). -/
def pySplitDD : List Char → List (List Char)
  | [] => [[]]
  | '\n' :: '\n' :: rest => [] :: pySplitDD rest
  | c :: rest =>
    match pySplitDD rest with
    | [] => [[c]]
    | b :: bs => (c :: b) :: bs

/-- Model of Python `'\n'.join(blocks)`. -/
def joinNL : List (List Char) → List Char
  | [] => []
  | [x] => x
  | x :: y :: rest => x ++ '\n' :: joinNL (y :: rest)

def convert_to_paragraphs_chars (text : List Char) : List Char :=
  let paragraphs := pySplitDD text
  let wrapped := paragraphs.map
    (fun p => "<p>".data ++ pyStrip p ++ "</p>".data)
  joinNL wrapped

def convert_to_paragraphs (text : String) : String :=
  ⟨convert_to_paragraphs_chars text.data⟩

theorem pySplitDD_ne_nil (l : List Char) : pySplitDD l ≠ [] := by
  unfold pySplitDD
  split
  · simp
  · simp
  · split <;> simp

/-- **C10** Paragraph wrapping never yields an empty result: the empty body
yields exactly `<p></p>`, and for every body text the output starts with a
wrapped paragraph block, i.e. it has the shape `"<p>" ++ mid ++ "</p>" ++ rest`. -/
theorem C10_paragraphs_nonempty :
    convert_to_paragraphs "" = "<p></p>" ∧
    ∀ t : String, ∃ mid rest : List Char,
      (convert_to_paragraphs t).data = "<p>".data ++ mid ++ "</p>".data ++ rest := by
  constructor
  · rfl
  · intro t
    unfold convert_to_paragraphs convert_to_paragraphs_chars
    cases hs : pySplitDD t.data with
    | nil => exact absurd hs (pySplitDD_ne_nil _)
    | cons b bs =>
      cases bs with
      | nil =>
        exact ⟨pyStrip b, [], by simp [joinNL]⟩
      | cons b2 bs2 =>
        exact ⟨pyStrip b, '\n' :: joinNL (("<p>".data ++ pyStrip b2 ++ "</p>".data) ::
          bs2.map (fun p => "<p>".data ++ pyStrip p ++ "</p>".data)), by simp [joinNL]⟩

/-! ## `replace_urls` (lines 214-227)

```python
def replace_urls(content, url):
    escaped_url = re.escape(url)
    modified_content = re.sub(fr'{escaped_url}/?wp-content/uploads/', './content/', content)
    match = re.search(fr'{escaped_url}/?[A-Za-z0-9 slash hyphen]*', modified_content)
    if match:
        print(f"Found URL: {match.group()}")
    return modified_content
```

Since `url` is regex-escaped, the substitution pattern is a literal with one
optional character: at each position the (greedy) regex first tries
`url ++ "/wp-content/uploads/"`, then `url ++ "wp-content/uploads/"`.
`re.sub` replaces each leftmost non-overlapping occurrence and resumes
scanning after the match.  `replUrlGo` is that scanner; the `Nat` argument
counts input characters still to be skipped because they belong to the
just-replaced match. -/

def replUrlGo (url : List Char) : Nat → List Char → List Char
  | _, [] => []
  | n + 1, _ :: rest => replUrlGo url n rest
  | 0, c :: rest =>
    if (url ++ "/wp-content/uploads/".data).isPrefixOf (c :: rest) then
      "./content/".data ++ replUrlGo url (url.length + 19) rest
    else if (url ++ "wp-content/uploads/".data).isPrefixOf (c :: rest) then
      "./content/".data ++ replUrlGo url (url.length + 18) rest
    else
      c :: replUrlGo url 0 rest

/-- The pure substitution part of `replace_urls` (line 218). -/
def replaceUrlsSub (content url : List Char) : List Char :=
  replUrlGo url 0 content

/-- Characters matched by the residual-URL diagnostic class `[A-Za-z0-9 slash hyphen]`. -/
def isUrlTailChar (c : Char) : Bool :=
  c.isAlpha || c.isDigit || c = '/' || c = '-'

/-- Model of the diagnostic `re.search(fr'{escaped_url}/?[A-Za-z0-9 slash hyphen]*', ...)`
(lines 224-226): leftmost occurrence of the literal site URL, greedily
extended over URL-tail characters (the optional slash is itself a URL-tail
character, so the greedy extension subsumes it). -/
def findResidual (url : List Char) : List Char → Option (List Char)
  | [] => if url.isEmpty then some [] else none
  | c :: rest =>
    if url.isPrefixOf (c :: rest) then
      some (url ++ ((c :: rest).drop url.length).takeWhile isUrlTailChar)
    else
      findResidual url rest

/-- `replace_urls`: first component is the returned `modified_content`, second
component is the printed `Found URL` diagnostic (if any).  The diagnostic
search inspects `modified_content` but the function returns
`modified_content` unchanged. -/
def replace_urls (content url : String) : String × Option String :=
  let modified : String := ⟨replaceUrlsSub content.data url.data⟩
  (modified, (findResidual url.data modified.data).map String.mk)

/-! ## `preprocess_comments` (lines 286-298)

```python
def preprocess_comments(comments):
    html_comments = f'<h3>Comments ({str(len(comments))})</h3>'
    if len(comments):
        for comment in comments:
            if re.search(r'liked this on Facebook\.', str(comment["content"])):
                html_comments += （Facebook notice div）
            else:
                html_comments += （author/date div + tag-stripped body)
        return html_comments
    else:
        return ""
```
-/

/-- A parsed, retained comment: author, body and the already-formatted
timestamp string (see `parse_wxr`, lines 198-202). -/
structure CommentData where
  author : String
  content : String
  date : String
deriving DecidableEq, Repr

/-- For the tag-stripping regex `<[^<]+?>`: given the text after a `<`,
return the number of characters making up the shortest completion
`[^<]+?>` (at least one non-`<` character, then `>`), if any.
`tagSpanGo` is the state after at least one content character has been
consumed: the next `>` closes the tag, a `<` kills the match. -/
def tagSpanGo : List Char → Option Nat
  | [] => none
  | c :: rest =>
    if c = '>' then some 1
    else if c = '<' then none
    else (tagSpanGo rest).map (· + 1)

def tagSpan : List Char → Option Nat
  | [] => none
  | c :: rest => if c = '<' then none else (tagSpanGo rest).map (· + 1)

/-- Model of `re.sub("<[^<]+?>", "", s)` (line 295): left-to-right scan,
dropping each leftmost non-overlapping match.  The `Nat` argument counts
characters of a matched tag still to be dropped. -/
def stripTagsGo : Nat → List Char → List Char
  | _, [] => []
  | n + 1, _ :: rest => stripTagsGo n rest
  | 0, c :: rest =>
    if c = '<' then
      match tagSpan rest with
      | some n => stripTagsGo n rest
      | none => c :: stripTagsGo 0 rest
    else
      c :: stripTagsGo 0 rest

def stripTags (s : String) : String := ⟨stripTagsGo 0 s.data⟩

/-- Rendering of a single comment inside the loop of `preprocess_comments`
(lines 289-295). -/
def renderComment (c : CommentData) : String :=
  if containsStr c.content "liked this on Facebook." then
    "<div class=\"comment\"><p><strong>" ++ c.author ++
      "</strong> give this a <strong>LIKE</strong> on Facebook!</p></div>"
  else
    "<div class=\"comment\"><p><strong>" ++ c.author ++ "</strong> on " ++
      c.date ++ ":</p>" ++ "<p>" ++ stripTags c.content ++ "</p></div>"

def preprocess_comments (comments : List CommentData) : String :=
  let header := "<h3>Comments (" ++ toString comments.length ++ ")</h3>"
  if comments.length ≠ 0 then
    header ++ String.join (comments.map renderComment)
  else
    ""

/-- **C3** Comment rendering is asymmetric at zero: an empty comment list
renders as the empty string (no "Comments (0)" header), while a single
comment renders as the header `<h3>Comments (1)</h3>` immediately followed by
that comment's rendering. -/
theorem C3_comment_header_asymmetry :
    preprocess_comments [] = "" ∧
    ∀ c : CommentData,
      preprocess_comments [c] = "<h3>Comments (1)</h3>" ++ renderComment c := by
  constructor
  · rfl
  · intro c
    unfold preprocess_comments
    simp only [List.length_singleton]
    show "<h3>Comments (1)</h3>" ++ ("" ++ renderComment c) = _
    rw [String.empty_append]

/-- Concrete body from the claim: an image reference under the site's
uploads directory. -/
def c4Body : String := "<img src=\"https://example.com/wp-content/uploads/2020/01/img.jpg\">"

def c4Url : String := "https://example.com"

/-- **C4** URL localization: on the claim's concrete input the localized
output contains `./content/2020/01/img.jpg` and no occurrence of the original
absolute prefix; and for every input the returned content is exactly the
result of the substitution pass — the residual-URL diagnostic scan never
alters it. -/
theorem C4_url_localization :
    (containsStr (replace_urls c4Body c4Url).1 "./content/2020/01/img.jpg" = true ∧
     containsStr (replace_urls c4Body c4Url).1 "https://example.com/wp-content/uploads/" = false) ∧
    ∀ content url : String,
      (replace_urls content url).1 = ⟨replaceUrlsSub content.data url.data⟩ := by
  exact ⟨⟨by decide, by decide⟩, fun content url => rfl⟩

/-! ## `replace_shortcode_captions` (lines 230-262)

```python
def replace_shortcode_captions(content):
    pattern = re.compile(r'\[caption id="(.*?)" align="(.*?)" width="(.*?)"\](.*?)\[\/caption\]', re.DOTALL)
    def replace_caption(match):
        ...
        inner_pattern = re.compile(r'(<img.*?\/>)(.*?)$', re.DOTALL)
        inner_match = inner_pattern.match(inner_content.strip())
        if inner_match: （build figure/figcaption HTML）
        else: return match.group(0)
    content = pattern.sub(replace_caption, content)
    return content
```

With `re.DOTALL`, the pattern is a chain of literals separated by non-greedy
groups.  At a given start position the backtracking search is equivalent to
taking, for each group in order, the text up to the *first* occurrence of the
following literal: each later component is a plain "first occurrence at or
after the current point" search, so if the earliest choices fail at some
later literal, every later choice fails as well (the remaining text only
shrinks to a suffix).  `matchCaptionAt` implements that; `subCapGo` is the
leftmost non-overlapping `pattern.sub` scan (skip counter as in
`replUrlGo`). -/

def capOpenLit : List Char := "[caption id=\"".data

def alignLit : List Char := "\" align=\"".data

def widthLit : List Char := "\" width=\"".data

def quoteBracketLit : List Char := "\"]".data

def endCaptionLit : List Char := "[/caption]".data

structure CaptionMatch where
  idAttr : List Char
  alignAttr : List Char
  widthAttr : List Char
  innerContent : List Char
deriving DecidableEq, Repr

/-- Try to match the caption-shortcode pattern starting exactly at the head of
`l`; on success return the four captured groups and the total matched
length. -/
def matchCaptionAt (l : List Char) : Option (CaptionMatch × Nat) :=
  if capOpenLit.isPrefixOf l then
    match splitFirst alignLit (l.drop capOpenLit.length) with
    | none => none
    | some (idA, l2) =>
      match splitFirst widthLit l2 with
      | none => none
      | some (alA, l3) =>
        match splitFirst quoteBracketLit l3 with
        | none => none
        | some (wA, l4) =>
          match splitFirst endCaptionLit l4 with
          | none => none
          | some (inn, _) =>
            some (⟨idA, alA, wA, inn⟩,
              capOpenLit.length + idA.length + alignLit.length + alA.length +
                widthLit.length + wA.length + quoteBracketLit.length +
                inn.length + endCaptionLit.length)
  else none

/-- The anchored inner match `(<img.*?\/>)(.*?)$` (lines 242-243): the
stripped inner block must start with `<img`; the non-greedy group runs to the
first `/>`; the rest of the string is the caption text. -/
def imgSplit (l : List Char) : Option (List Char × List Char) :=
  if "<img".data.isPrefixOf l then
    match splitFirst "/>".data (l.drop 4) with
    | some (mid, after) => some ("<img".data ++ mid ++ "/>".data, after)
    | none => none
  else none

/-- The replacement callback `replace_caption` (lines 235-257): build the
figure/figcaption HTML, or reproduce the original shortcode text verbatim
when the inner block does not have the image-then-text shape. -/
def replace_caption (m : CaptionMatch) : List Char :=
  let inner := pyStrip m.innerContent
  match imgSplit inner with
  | some (imgTag, capText) =>
    "<figure id=\"".data ++ m.idAttr ++ "\" class=\"".data ++ m.alignAttr ++
      "\" style=\"width:".data ++ m.widthAttr ++ "px\">\n  ".data ++
      pyStrip imgTag ++ "\n  <figcaption>".data ++ pyStrip capText ++
      "</figcaption>\n</figure>\n".data
  | none =>
    capOpenLit ++ m.idAttr ++ alignLit ++ m.alignAttr ++ widthLit ++
      m.widthAttr ++ quoteBracketLit ++ m.innerContent ++ endCaptionLit

/-- The `pattern.sub` scan: leftmost non-overlapping matches, scanning
resumes after each match (skip counter). -/
def subCapGo : Nat → List Char → List Char
  | _, [] => []
  | n + 1, _ :: rest => subCapGo n rest
  | 0, c :: rest =>
    match matchCaptionAt (c :: rest) with
    | some (m, len) => replace_caption m ++ subCapGo (len - 1) rest
    | none => c :: subCapGo 0 rest

def replace_shortcode_captions (content : String) : String :=
  ⟨subCapGo 0 content.data⟩

/-- Whether the caption-shortcode pattern matches anywhere in `l`. -/
def hasCaption : List Char → Bool
  | [] => false
  | c :: rest => (matchCaptionAt (c :: rest)).isSome || hasCaption rest

theorem subCapGo_id_of_no_caption {l : List Char} (h : hasCaption l = false) :
    subCapGo 0 l = l := by
  induction l with
  | nil => rfl
  | cons c rest ih =>
    unfold hasCaption at h
    rw [Bool.or_eq_false_iff] at h
    have hnone : matchCaptionAt (c :: rest) = none := by
      have h1 := h.1
      cases hm : matchCaptionAt (c :: rest) with
      | none => rfl
      | some v => rw [hm] at h1; simp at h1
    unfold subCapGo
    simp only [hnone]
    rw [ih h.2]

/-- A nested-shortcode input on which caption rewriting is *not* idempotent:
the first pass leaves an inner `[caption ...]` opener inside the emitted
`figcaption` together with a dangling `[/caption]` further right, which the
second pass then rewrites. -/
def c5Input : String :=
  "[caption id=\"i\" align=\"a\" width=\"w\"]<img/>[caption id=\"j\" align=\"b\" width=\"v\"]<img2/>X[/caption][/caption]"

/-- **C5 (counterexample)** Caption shortcode rewriting is not idempotent:
on `c5Input`, applying the rewrite twice differs from applying it once. -/
theorem C5_not_idempotent :
    replace_shortcode_captions (replace_shortcode_captions c5Input)
      ≠ replace_shortcode_captions c5Input := by
  decide

/-- **C5 (amended)** On any input containing no occurrence of the caption
shortcode pattern the rewrite is the identity; consequently applying the
rewrite twice yields the same result as once whenever the once-rewritten
output contains no shortcode pattern (full idempotence fails: see the
nested-shortcode counterexample). -/
theorem C5_identity_without_shortcode (s : String) :
    (hasCaption s.data = false → replace_shortcode_captions s = s) ∧
    (hasCaption (replace_shortcode_captions s).data = false →
      replace_shortcode_captions (replace_shortcode_captions s)
        = replace_shortcode_captions s) := by
  constructor
  · intro h
    unfold replace_shortcode_captions
    exact congrArg String.mk (subCapGo_id_of_no_caption h)
  · intro h
    unfold replace_shortcode_captions at h ⊢
    exact congrArg String.mk (subCapGo_id_of_no_caption h)

/-- Witness for the amended C5 theorem at a concrete shortcode-free input. -/
theorem C5_identity_without_shortcode_witness :
    replace_shortcode_captions "plain <b>text</b>" = "plain <b>text</b>" ∧
    replace_shortcode_captions (replace_shortcode_captions "plain <b>text</b>")
      = replace_shortcode_captions "plain <b>text</b>" :=
  ⟨(C5_identity_without_shortcode "plain <b>text</b>").1 (by decide),
   (C5_identity_without_shortcode "plain <b>text</b>").2 (by decide)⟩

/-! ## Datetime model (`datetime.strptime` / `strftime`, `pytz`)

`DateTime` carries the parsed calendar fields plus an optional UTC offset in
minutes (`none` = naive datetime).  `pyStrptimeYmd` models
`datetime.strptime(s, '%Y-%m-%d %H:%M:%S')` and `pyStrptimeRfc` models
`datetime.strptime(s, '%a, %d %b %Y %H:%M:%S %z')`, following CPython's
`_strptime` directive regexes (`%Y` is exactly four digits; `%m`, `%d`, `%H`,
`%M`, `%S` are one or two digits with the documented range alternations;
whitespace in the format matches one or more whitespace characters; the whole
input must be consumed) and the `datetime` constructor's range checks
(day-of-month, seconds at most 59). -/

structure DateTime where
  year : Nat
  month : Nat
  day : Nat
  hour : Nat
  minute : Nat
  second : Nat
  utcOffsetMinutes : Option Int
deriving DecidableEq, Repr

def isLeapYear (y : Nat) : Bool :=
  (y % 4 = 0 && y % 100 ≠ 0) || y % 400 = 0

def daysInMonth (y m : Nat) : Nat :=
  if m = 2 then (if isLeapYear y then 29 else 28)
  else if m = 4 || m = 6 || m = 9 || m = 11 then 30
  else 31

def digitVal (c : Char) : Option Nat :=
  if c.isDigit then some (c.toNat - 48) else none

/-- Exactly two digits. -/
def readTwoDigits : List Char → Option (Nat × List Char)
  | a :: b :: rest =>
    match digitVal a, digitVal b with
    | some x, some y => some (10 * x + y, rest)
    | _, _ => none
  | _ => none

/-- Exactly four digits (the `%Y` directive). -/
def readFourDigits : List Char → Option (Nat × List Char)
  | a :: b :: c :: d :: rest =>
    match digitVal a, digitVal b, digitVal c, digitVal d with
    | some w, some x, some y, some z => some (1000 * w + 100 * x + 10 * y + z, rest)
    | _, _, _, _ => none
  | _ => none

/-- A one-or-two-digit directive with a validity alternation: try the
two-digit alternatives first (regex alternation order), falling back to a
single digit. -/
def readOneOrTwoDigits (validTwo : Nat → Bool) (validOne : Nat → Bool)
    (l : List Char) : Option (Nat × List Char) :=
  match readTwoDigits l with
  | some (v, rest) =>
    if validTwo v then some (v, rest)
    else
      match l with
      | c :: rest1 =>
        match digitVal c with
        | some x => if validOne x then some (x, rest1) else none
        | none => none
      | [] => none
  | none =>
    match l with
    | c :: rest1 =>
      match digitVal c with
      | some x => if validOne x then some (x, rest1) else none
      | none => none
    | [] => none

/-- Whitespace in a `strptime` format string: one or more whitespace chars. -/
def skipWs1 : List Char → Option (List Char)
  | c :: rest =>
    if c.isWhitespace then some (rest.dropWhile Char.isWhitespace) else none
  | [] => none

def expectLit (lit l : List Char) : Option (List Char) :=
  if lit.isPrefixOf l then some (l.drop lit.length) else none

/-- `%m`: `1[0-2]|0[1-9]|[1-9]`. -/
def readMonthNum (l : List Char) : Option (Nat × List Char) :=
  readOneOrTwoDigits (fun v => decide (1 ≤ v) && decide (v ≤ 12))
    (fun v => decide (1 ≤ v)) l

/-- `%d`: `3[01]|[12]\d|0[1-9]|[1-9]`. -/
def readDayNum (l : List Char) : Option (Nat × List Char) :=
  readOneOrTwoDigits (fun v => decide (1 ≤ v) && decide (v ≤ 31))
    (fun v => decide (1 ≤ v)) l

/-- `%H`: `2[0-3]|[0-1]\d|\d`. -/
def readHourNum (l : List Char) : Option (Nat × List Char) :=
  readOneOrTwoDigits (fun v => decide (v ≤ 23)) (fun _ => true) l

/-- `%M`: `[0-5]\d|\d`. -/
def readMinuteNum (l : List Char) : Option (Nat × List Char) :=
  readOneOrTwoDigits (fun v => decide (v ≤ 59)) (fun _ => true) l

/-- `%S`: `6[01]|[0-5]\d|\d` (leap seconds pass the regex but are rejected by
the `datetime` constructor below). -/
def readSecondNum (l : List Char) : Option (Nat × List Char) :=
  readOneOrTwoDigits (fun v => decide (v ≤ 61)) (fun _ => true) l

/-- Model of `datetime.strptime(s, '%Y-%m-%d %H:%M:%S')` (line 192):
`none` models the `ValueError` raised on any non-matching input. -/
def pyStrptimeYmd (l : List Char) : Option DateTime :=
  match readFourDigits l with
  | none => none
  | some (y, r1) =>
    match expectLit ['-'] r1 with
    | none => none
    | some r2 =>
      match readMonthNum r2 with
      | none => none
      | some (mo, r3) =>
        match expectLit ['-'] r3 with
        | none => none
        | some r4 =>
          match readDayNum r4 with
          | none => none
          | some (d, r5) =>
            match skipWs1 r5 with
            | none => none
            | some r6 =>
              match readHourNum r6 with
              | none => none
              | some (h, r7) =>
                match expectLit [':'] r7 with
                | none => none
                | some r8 =>
                  match readMinuteNum r8 with
                  | none => none
                  | some (mi, r9) =>
                    match expectLit [':'] r9 with
                    | none => none
                    | some r10 =>
                      match readSecondNum r10 with
                      | none => none
                      | some (s, r11) =>
                        if r11 = [] ∧ d ≤ daysInMonth y mo ∧ s ≤ 59 then
                          some ⟨y, mo, d, h, mi, s, none⟩
                        else none

def dayAbbrevs : List (List Char) :=
  ["mon".data, "tue".data, "wed".data, "thu".data, "fri".data,
   "sat".data, "sun".data]

def monthAbbrevs : List (List Char) :=
  ["jan".data, "feb".data, "mar".data, "apr".data, "may".data, "jun".data,
   "jul".data, "aug".data, "sep".data, "oct".data, "nov".data, "dec".data]

/-- Case-insensitive match of a three-letter abbreviation at the head. -/
def matchAbbrev (abbr l : List Char) : Bool :=
  abbr.isPrefixOf ((l.take abbr.length).map Char.toLower)

/-- `%a`: any locale weekday abbreviation, case-insensitively (the matched
weekday does not influence the resulting datetime). -/
def readDayAbbrev (l : List Char) : Option (List Char) :=
  if dayAbbrevs.any (fun a => matchAbbrev a l) then some (l.drop 3) else none

/-- `%b`: locale month abbreviation, case-insensitively; yields the month
number. -/
def readMonthAbbrev (l : List Char) : Option (Nat × List Char) :=
  match (monthAbbrevs.zip (List.range 12)).find? (fun p => matchAbbrev p.1 l) with
  | some (_, i) => some (i + 1, l.drop 3)
  | none => none

/-- `%z`: `Z`, or a sign followed by two hour digits, an optional colon and
two minute digits (fractional/second extensions are accepted and ignored by
CPython; they do not occur in WXR exports and are not modelled).  The
resulting offset must be less than 24 hours (`datetime.timezone`'s range
check). -/
def readUtcOffset (l : List Char) : Option (Int × List Char) :=
  match l with
  | 'Z' :: rest => some (0, rest)
  | '+' :: rest =>
    match readOffsetDigits rest with
    | some (v, r) => some ((v : Int), r)
    | none => none
  | '-' :: rest =>
    match readOffsetDigits rest with
    | some (v, r) => some (-(v : Int), r)
    | none => none
  | _ => none
where
  readOffsetDigits (l : List Char) : Option (Nat × List Char) :=
    match readTwoDigits l with
    | none => none
    | some (hh, r1) =>
      let r2 := match r1 with
        | ':' :: r => r
        | r => r
      match readTwoDigits r2 with
      | none => none
      | some (mm, r3) =>
        if hh * 60 + mm < 24 * 60 then some (hh * 60 + mm, r3) else none

/-- Model of `datetime.strptime(s, '%a, %d %b %Y %H:%M:%S %z')` (line 170):
`none` models the `ValueError` raised on any non-matching input. -/
def pyStrptimeRfc (l : List Char) : Option DateTime :=
  match readDayAbbrev l with
  | none => none
  | some r0 =>
    match expectLit [','] r0 with
    | none => none
    | some r0c =>
      match skipWs1 r0c with
      | none => none
      | some r1 =>
        match readDayNum r1 with
        | none => none
        | some (d, r2) =>
          match skipWs1 r2 with
          | none => none
          | some r3 =>
            match readMonthAbbrev r3 with
            | none => none
            | some (mo, r4) =>
              match skipWs1 r4 with
              | none => none
              | some r5 =>
                match readFourDigits r5 with
                | none => none
                | some (y, r6) =>
                  match skipWs1 r6 with
                  | none => none
                  | some r7 =>
                    match readHourNum r7 with
                    | none => none
                    | some (h, r8) =>
                      match expectLit [':'] r8 with
                      | none => none
                      | some r9 =>
                        match readMinuteNum r9 with
                        | none => none
                        | some (mi, r10) =>
                          match expectLit [':'] r10 with
                          | none => none
                          | some r11 =>
                            match readSecondNum r11 with
                            | none => none
                            | some (s, r12) =>
                              match skipWs1 r12 with
                              | none => none
                              | some r13 =>
                                match readUtcOffset r13 with
                                | none => none
                                | some (off, r14) =>
                                  if r14 = [] ∧ d ≤ daysInMonth y mo ∧ s ≤ 59 then
                                    some ⟨y, mo, d, h, mi, s, some off⟩
                                  else none

def weekdayNames : List String :=
  ["Sunday", "Monday", "Tuesday", "Wednesday", "Thursday", "Friday", "Saturday"]

def monthNames : List String :=
  ["January", "February", "March", "April", "May", "June", "July", "August",
   "September", "October", "November", "December"]

/-- Day of week (0 = Sunday) by Sakamoto's method. -/
def dayOfWeek (y m d : Nat) : Nat :=
  let t := [0, 3, 2, 5, 0, 3, 5, 1, 4, 6, 2, 4]
  let y1 := if m < 3 then y - 1 else y
  (y1 + y1 / 4 + y1 / 400 + t.getD (m - 1) 0 + d - y1 / 100) % 7

def pad2 (n : Nat) : String :=
  if n < 10 then "0" ++ toString n else toString n

/-- Model of `strftime("%A, %B %-d, %Y @ %-I:%M %p")` (lines 194 and 351). -/
def strftimeLong (d : DateTime) : String :=
  let h12 := if d.hour % 12 = 0 then 12 else d.hour % 12
  let ampm := if d.hour < 12 then "AM" else "PM"
  weekdayNames.getD (dayOfWeek d.year d.month d.day) "" ++ ", " ++
    monthNames.getD (d.month - 1) "" ++ " " ++ toString d.day ++ ", " ++
    toString d.year ++ " @ " ++ toString h12 ++ ":" ++ pad2 d.minute ++
    " " ++ ampm

/-- Model of `strftime('%B %-d, %Y')` (line 210). -/
def strftimeMonthDayYear (d : DateTime) : String :=
  monthNames.getD (d.month - 1) "" ++ " " ++ toString d.day ++ ", " ++
    toString d.year

/-- The external timezone machinery (`pytz.timezone(...)` plus
`datetime.astimezone`): given a target zone name and a datetime — aware or
naive; CPython interprets a naive datetime as system-local time here —
produce the datetime converted to that zone.  Its arithmetic lives outside
the repository, so it is a parameter of the embedding. -/
structure TzEnv where
  astimezone : String → DateTime → DateTime

/-- A concrete environment for witnesses: the identity conversion (system
local time equal to every target zone). -/
def constTzEnv : TzEnv := ⟨fun _ d => d⟩

/-! ## `parse_wxr` (lines 119-211)

The XML side is modelled structurally: an `XmlItem` holds, for each element
the code looks up with `item.find(...)`, the element's text (`none` when the
element is absent — `.text` on a missing element raises `AttributeError`,
modelled as `Except.error`).  `parse_wxr`'s per-item loop (lines 140-208) is
`parse_item`; the loop over all items collecting `posts`, `pages`, `dates`
and the printed skip diagnostics (line 154) is `parse_wxr_items`.  The
channel-level metadata extraction (lines 124-134 feed the returned
`blog_title`/`blog_description`/`url` and the author map) is passed in as the
already-built author association list, exactly as the loop consumes it. -/

/-- Text fields of one `wp:comment` element (`none` = subelement absent). -/
structure XmlComment where
  author : Option String
  content : Option String
  date : Option String
  approved : Option String
deriving DecidableEq, Repr

/-- Text fields of one `item` element (`none` = subelement absent). -/
structure XmlItem where
  title : Option String
  post_type : Option String
  status : Option String
  creator : Option String
  pubDate : Option String
  content : Option String
  comments : List XmlComment
deriving DecidableEq, Repr

/-- One retained item (the `post_data` dict, lines 177-184). -/
structure ContentItem where
  title : String
  author : String
  pub_date : Option DateTime
  content : String
  type : String
  comments : List CommentData
deriving DecidableEq, Repr

/-- Outcome of the per-item loop body: the item was skipped by a `continue`
(with the diagnostic printed at line 154, if any) or retained. -/
inductive ItemResult where
  | skipped (diag : Option String)
  | kept (ci : ContentItem)
deriving DecidableEq, Repr

/-- The data `parse_wxr` accumulates across items. -/
structure ParseResult where
  posts : List ContentItem
  pages : List ContentItem
  dates : List DateTime
  diags : List String
deriving DecidableEq, Repr

/-- Author resolution (lines 161-163):
`author_map.get(login, 'Unknown Author') if creator is not None else ...`. -/
def authorOf (amap : List (String × String)) : Option String → String
  | none => "Unknown Author"
  | some login => ((amap.lookup login).getD "Unknown Author")

/-- The comment-processing loop body (lines 186-203): extract the four
subelement texts (`AttributeError` if a subelement is missing), parse and
reformat the date (`ValueError` if it does not match the format), and keep
the comment only when `comment_approved == '1'`.  Note the date is parsed
*before* the approval test. -/
def parseCommentOne (env : TzEnv) (c : XmlComment) : Except String (Option CommentData) :=
  match c.author, c.content, c.date, c.approved with
  | some a, some b, some dt, some ap =>
    match pyStrptimeYmd dt.data with
    | none => .error "ValueError: time data does not match format"
    | some d =>
      let ds := strftimeLong (env.astimezone "America/Los_Angeles" d)
      if ap = "1" then .ok (some ⟨a, b, ds⟩) else .ok none
  | _, _, _, _ => .error "AttributeError: NoneType object has no attribute text"

def parseComments (env : TzEnv) : List XmlComment → Except String (List CommentData)
  | [] => .ok []
  | c :: cs =>
    match parseCommentOne env c with
    | .error e => .error e
    | .ok o =>
      match parseComments env cs with
      | .error e => .error e
      | .ok l => .ok (o.toList ++ l)

/-- Publication-date handling (lines 165-172): an absent `pubDate` element
leaves the `pub_date` variable `None`; otherwise the text is parsed with
`strptime` (raising `ValueError` on mismatch) and converted to the
caller-supplied timezone.  (When the element is present with the literal text
`'Unknown Date'` the code skips parsing and stores the raw element object,
which — like `None` — is not a datetime and also crashes `strftime` at
render time; both non-datetime cases are modelled as `none`.) -/
def parsePubDate (env : TzEnv) (tz : String) : Option String → Except String (Option DateTime)
  | none => .ok none
  | some txt =>
    if txt = "Unknown Date" then .ok none
    else
      match pyStrptimeRfc txt.data with
      | none => .error "ValueError: time data does not match format"
      | some d => .ok (some (env.astimezone tz d))

/-- The skip diagnostic printed at lines 154-155. -/
def unpublishedDiag (title : Option String) (status : String) : String :=
  "Unpublished item skipped: Title = " ++ title.getD "No Title" ++
    ", Status = " ++ status

/-- The per-item loop body (lines 140-208). -/
def parse_item (env : TzEnv) (tz : String) (amap : List (String × String))
    (it : XmlItem) : Except String ItemResult :=
  match it.post_type, it.status with
  | none, _ => .ok (.skipped none)
  | some _, none => .ok (.skipped none)
  | some t, some s =>
    if t = "post" ∨ t = "page" then
      if s = "publish" then
        match parsePubDate env tz it.pubDate with
        | .error e => .error e
        | .ok pd =>
          match parseComments env it.comments with
          | .error e => .error e
          | .ok cs =>
            .ok (.kept
              { title := it.title.getD "No Title"
                author := authorOf amap it.creator
                pub_date := pd
                content := it.content.getD ""
                type := t
                comments := cs })
      else .ok (.skipped (some (unpublishedDiag it.title s)))
    else .ok (.skipped none)

/-- Append a kept item to the accumulated result (lines 172 and 205-208):
the parsed date joins `dates`, and the item joins `posts` or `pages`
according to its type. -/
def addKept (ci : ContentItem) (r : ParseResult) : ParseResult :=
  if ci.type = "post" then
    { r with posts := ci :: r.posts, dates := ci.pub_date.toList ++ r.dates }
  else if ci.type = "page" then
    { r with pages := ci :: r.pages, dates := ci.pub_date.toList ++ r.dates }
  else
    { r with dates := ci.pub_date.toList ++ r.dates }

/-- The item loop of `parse_wxr` over all `//item` nodes, in document
order.  A `.error` models an uncaught Python exception aborting the whole
run. -/
def parse_wxr_items (env : TzEnv) (tz : String) (amap : List (String × String)) :
    List XmlItem → Except String ParseResult
  | [] => .ok ⟨[], [], [], []⟩
  | it :: rest =>
    match parse_item env tz amap it with
    | .error e => .error e
    | .ok (.skipped d) =>
      match parse_wxr_items env tz amap rest with
      | .error e => .error e
      | .ok r => .ok { r with diags := d.toList ++ r.diags }
    | .ok (.kept ci) =>
      match parse_wxr_items env tz amap rest with
      | .error e => .error e
      | .ok r => .ok (addKept ci r)

/-- The per-item byline rendering in `add_content` (lines 350-352):
`pub_date.strftime(...)` raises `AttributeError` when `pub_date` is not a
datetime (absent publication timestamp). -/
def item_byline (ci : ContentItem) : Except String String :=
  match ci.pub_date with
  | none => .error "AttributeError: NoneType object has no attribute strftime"
  | some d => .ok ("By " ++ ci.author ++ " on " ++ strftimeLong d)

/-! ## C1: publication-timestamp error handling -/

/-- A published post whose `pubDate` element is absent. -/
def c1AbsentItem : XmlItem :=
  { title := some "A", post_type := some "post", status := some "publish",
    creator := none, pubDate := none, content := some "body", comments := [] }

/-- A published post whose `pubDate` text does not match the expected
format. -/
def c1BadItem : XmlItem :=
  { c1AbsentItem with pubDate := some "garbage" }

/-- **C1** Evaluation of the code at the claim's failing inputs.  An item
with an *absent* publication timestamp is kept by the parser with
`pub_date = None`, but rendering its byline then raises `AttributeError`
(`None.strftime`) instead of producing a fallback representation; an item
with an *unparseable* timestamp makes the parse itself abort with
`ValueError`.  In neither case is the item rendered with a fallback/omitted
date. -/
theorem C1_pubdate_failure :
    parse_wxr_items constTzEnv "America/Los_Angeles" [] [c1AbsentItem]
      = .ok ⟨[⟨"A", "Unknown Author", none, "body", "post", []⟩], [], [], []⟩ ∧
    item_byline ⟨"A", "Unknown Author", none, "body", "post", []⟩
      = .error "AttributeError: NoneType object has no attribute strftime" ∧
    parse_wxr_items constTzEnv "America/Los_Angeles" [] [c1BadItem]
      = .error "ValueError: time data does not match format" :=
  ⟨rfl, rfl, rfl⟩

/-! ## C2: only approved comments are retained -/

/-- The expected rendering of one embedded comment if (and only if) it is
retained: `some` exactly for comments whose approval flag is literally `'1'`
and whose fields are extractable and parseable. -/
def approvedRender (env : TzEnv) (c : XmlComment) : Option CommentData :=
  if c.approved = some "1" then
    match c.author, c.content, c.date with
    | some a, some b, some dt =>
      (pyStrptimeYmd dt.data).map
        (fun d => ⟨a, b, strftimeLong (env.astimezone "America/Los_Angeles" d)⟩)
    | _, _, _ => none
  else none

theorem parseCommentOne_ok {env : TzEnv} {c : XmlComment} {o : Option CommentData}
    (h : parseCommentOne env c = .ok o) : o = approvedRender env c := by
  obtain ⟨a, b, dt, ap⟩ := c
  cases a with
  | none => simp [parseCommentOne] at h
  | some a0 =>
  cases b with
  | none => simp [parseCommentOne] at h
  | some b0 =>
  cases dt with
  | none => simp [parseCommentOne] at h
  | some dt0 =>
  cases ap with
  | none => simp [parseCommentOne] at h
  | some ap0 =>
  simp only [parseCommentOne] at h
  cases hd : pyStrptimeYmd dt0.data with
  | none => simp [hd] at h
  | some d =>
    simp only [hd] at h
    by_cases hap : ap0 = "1"
    · rw [if_pos hap] at h
      simp only [Except.ok.injEq] at h
      subst h
      simp [approvedRender, hap, hd]
    · rw [if_neg hap] at h
      simp only [Except.ok.injEq] at h
      subst h
      simp [approvedRender, hap]

theorem parseComments_ok {env : TzEnv} {cs : List XmlComment} {l : List CommentData}
    (h : parseComments env cs = .ok l) :
    l = cs.filterMap (approvedRender env) := by
  induction cs generalizing l with
  | nil =>
    simp [parseComments] at h
    simp [h]
  | cons c cs ih =>
    unfold parseComments at h
    cases h1 : parseCommentOne env c with
    | error e => rw [h1] at h; exact absurd h (by simp)
    | ok o =>
      rw [h1] at h
      cases h2 : parseComments env cs with
      | error e => rw [h2] at h; exact absurd h (by simp)
      | ok l2 =>
        rw [h2] at h
        simp only [Except.ok.injEq] at h
        subst h
        have ho := parseCommentOne_ok h1
        rw [ih h2, List.filterMap_cons, ← ho]
        cases o <;> simp

theorem parseComments_mem_ok {env : TzEnv} {cs : List XmlComment} {l : List CommentData}
    (h : parseComments env cs = .ok l) {c : XmlComment} (hc : c ∈ cs) :
    ∃ o, parseCommentOne env c = .ok o := by
  induction cs generalizing l with
  | nil => cases hc
  | cons c0 cs ih =>
    unfold parseComments at h
    cases h1 : parseCommentOne env c0 with
    | error e => rw [h1] at h; exact absurd h (by simp)
    | ok o =>
      rw [h1] at h
      cases h2 : parseComments env cs with
      | error e => rw [h2] at h; exact absurd h (by simp)
      | ok l2 =>
        rcases List.mem_cons.mp hc with hceq | hcmem
        · exact ⟨o, hceq ▸ h1⟩
        · exact ih h2 hcmem

theorem parseCommentOne_approved_isSome {env : TzEnv} {c : XmlComment}
    {o : Option CommentData} (h : parseCommentOne env c = .ok o)
    (hap : c.approved = some "1") : o.isSome := by
  obtain ⟨a, b, dt, ap⟩ := c
  simp at hap
  subst hap
  cases a with
  | none => simp [parseCommentOne] at h
  | some a0 =>
  cases b with
  | none => simp [parseCommentOne] at h
  | some b0 =>
  cases dt with
  | none => simp [parseCommentOne] at h
  | some dt0 =>
  simp only [parseCommentOne] at h
  cases hd : pyStrptimeYmd dt0.data with
  | none => simp [hd] at h
  | some d =>
    simp only [hd] at h
    simp at h
    subst h
    rfl

/-- **C2** For every successfully parsed item, the retained comments are
exactly the renderings of the embedded comments whose approval flag is
literally `'1'` (in document order): any comment with another approval value
renders to nothing and is dropped, and every approved comment of a
successfully parsed item is retained. -/
theorem C2_comments_filter (env : TzEnv) (tz : String)
    (amap : List (String × String)) (it : XmlItem) (ci : ContentItem)
    (h : parse_item env tz amap it = .ok (.kept ci)) :
    ci.comments = it.comments.filterMap (approvedRender env) ∧
    (∀ c ∈ it.comments, c.approved ≠ some "1" → approvedRender env c = none) ∧
    (∀ c ∈ it.comments, c.approved = some "1" → (approvedRender env c).isSome) := by
  have hcs : parseComments env it.comments = .ok ci.comments := by
    cases hpt : it.post_type with
    | none => simp [parse_item, hpt] at h
    | some t =>
      cases hst : it.status with
      | none => simp [parse_item, hpt, hst] at h
      | some s =>
        simp only [parse_item, hpt, hst] at h
        by_cases htp : t = "post" ∨ t = "page"
        · rw [if_pos htp] at h
          by_cases hpub : s = "publish"
          · rw [if_pos hpub] at h
            cases hpd : parsePubDate env tz it.pubDate with
            | error e => rw [hpd] at h; exact absurd h (by simp)
            | ok pd =>
              rw [hpd] at h
              cases hc : parseComments env it.comments with
              | error e => rw [hc] at h; exact absurd h (by simp)
              | ok cs =>
                rw [hc] at h
                simp only [Except.ok.injEq, ItemResult.kept.injEq] at h
                rw [← h]
          · rw [if_neg hpub] at h; exact absurd h (by simp)
        · rw [if_neg htp] at h; exact absurd h (by simp)
  refine ⟨parseComments_ok hcs, ?_, ?_⟩
  · intro c _ hnap
    simp [approvedRender, hnap]
  · intro c hc hap
    obtain ⟨o, ho⟩ := parseComments_mem_ok hcs hc
    have := parseCommentOne_approved_isSome ho hap
    rwa [parseCommentOne_ok ho] at this

/-- A demo item with one approved and one unapproved comment. -/
def c2DemoItem : XmlItem :=
  { title := some "T", post_type := some "post", status := some "publish",
    creator := none, pubDate := none, content := some "",
    comments :=
      [⟨some "Alice", some "hi", some "2020-01-02 03:04:05", some "1"⟩,
       ⟨some "Bob", some "yo", some "2020-01-02 03:04:05", some "0"⟩] }

/-- The item the parser produces for `c2DemoItem`: only Alice's approved
comment is retained. -/
def c2DemoKept : ContentItem :=
  ⟨"T", "Unknown Author", none, "", "post",
   [⟨"Alice", "hi", "Thursday, January 2, 2020 @ 3:04 AM"⟩]⟩

/-- Witness for C2 at a concrete mixed-approval input. -/
theorem C2_comments_filter_witness :
    c2DemoKept.comments = c2DemoItem.comments.filterMap (approvedRender constTzEnv) :=
  (C2_comments_filter constTzEnv "America/Los_Angeles" [] c2DemoItem c2DemoKept rfl).1

/-! ## C7: skip diagnostics -/

/-- A published item of unsupported type. -/
def c7AttachmentItem : XmlItem :=
  { title := some "T", post_type := some "attachment", status := some "publish",
    creator := none, pubDate := none, content := none, comments := [] }

/-- An unpublished post. -/
def c7DraftItem : XmlItem :=
  { title := some "D", post_type := some "post", status := some "draft",
    creator := none, pubDate := none, content := none, comments := [] }

/-- **C7 (counterexample)** An item of unsupported type (`attachment`) is
skipped with *no* diagnostic at all: the parse of a document holding only
that item yields empty posts/pages and an empty diagnostic list, refuting the
claim that every skipped item comes with a diagnostic line identifying its
title. -/
theorem C7_silent_type_skip :
    parse_wxr_items constTzEnv "America/Los_Angeles" [] [c7AttachmentItem]
      = .ok ⟨[], [], [], []⟩ :=
  rfl

/-- **C7 (amended)** Items whose declared type is neither `post` nor `page`
are excluded silently, with no diagnostic; items of supported type whose
status is not `publish` are excluded together with a diagnostic line
identifying the skipped item's title. -/
theorem C7_skip_diagnostics (env : TzEnv) (tz : String)
    (amap : List (String × String)) (it : XmlItem) (t s : String)
    (ht : it.post_type = some t) (hs : it.status = some s) :
    (¬ (t = "post" ∨ t = "page") →
      parse_wxr_items env tz amap [it] = .ok ⟨[], [], [], []⟩) ∧
    ((t = "post" ∨ t = "page") → s ≠ "publish" →
      parse_wxr_items env tz amap [it]
        = .ok ⟨[], [], [], [unpublishedDiag it.title s]⟩) := by
  constructor
  · intro hnot
    simp [parse_wxr_items, parse_item, ht, hs, hnot]
  · intro hyes hns
    simp [parse_wxr_items, parse_item, ht, hs, hyes, hns]

/-- Witness for the amended C7 theorem: the attachment item is skipped
silently, the draft post is skipped with its diagnostic line. -/
theorem C7_skip_diagnostics_witness :
    parse_wxr_items constTzEnv "America/Los_Angeles" [] [c7AttachmentItem]
      = .ok ⟨[], [], [], []⟩ ∧
    parse_wxr_items constTzEnv "America/Los_Angeles" [] [c7DraftItem]
      = .ok ⟨[], [], [], ["Unpublished item skipped: Title = D, Status = draft"]⟩ :=
  ⟨(C7_skip_diagnostics constTzEnv "America/Los_Angeles" [] c7AttachmentItem
      "attachment" "publish" rfl rfl).1 (by decide),
   (C7_skip_diagnostics constTzEnv "America/Los_Angeles" [] c7DraftItem
      "post" "draft" rfl rfl).2 (Or.inl rfl) (by decide)⟩

/-! ## C9: comment fields are parsed before the approval filter -/

theorem parseCommentOne_bad_error {env : TzEnv} {c : XmlComment}
    (hbad : c.author = none ∨ c.content = none ∨ c.date = none ∨
      c.approved = none ∨ ∃ dt, c.date = some dt ∧ pyStrptimeYmd dt.data = none) :
    ∃ e, parseCommentOne env c = .error e := by
  obtain ⟨a, b, dt, ap⟩ := c
  cases a with
  | none => exact ⟨_, rfl⟩
  | some a0 =>
  cases b with
  | none => exact ⟨_, rfl⟩
  | some b0 =>
  cases dt with
  | none => exact ⟨_, rfl⟩
  | some dt0 =>
  cases ap with
  | none => exact ⟨_, rfl⟩
  | some ap0 =>
  refine ⟨"ValueError: time data does not match format", ?_⟩
  have hparse : pyStrptimeYmd dt0.data = none := by
    rcases hbad with h | h | h | h | ⟨dt1, hdt1, hp⟩
    · exact absurd h (by simp)
    · exact absurd h (by simp)
    · exact absurd h (by simp)
    · exact absurd h (by simp)
    · simp only [Option.some.injEq] at hdt1
      rw [← hdt1] at hp
      exact hp
  simp [parseCommentOne, hparse]

theorem parseComments_mem_error {env : TzEnv} {cs : List XmlComment}
    {c : XmlComment} (hc : c ∈ cs)
    (herr : ∃ e, parseCommentOne env c = .error e) :
    ∃ e, parseComments env cs = .error e := by
  induction cs with
  | nil => cases hc
  | cons c0 cs ih =>
    rcases List.mem_cons.mp hc with hceq | hcmem
    · obtain ⟨e, he⟩ := herr
      subst hceq
      exact ⟨e, by unfold parseComments; rw [he]⟩
    · cases h1 : parseCommentOne env c0 with
      | error e => exact ⟨e, by unfold parseComments; rw [h1]⟩
      | ok o =>
        obtain ⟨e, he⟩ := ih hcmem
        exact ⟨e, by unfold parseComments; rw [h1, he]⟩

/-- **C9** The comment loop extracts and parses every embedded comment's
fields *before* applying the approval filter: for a retained (published,
supported-type) item possessing any comment whose required fields are absent
or whose date does not match `%Y-%m-%d %H:%M:%S`, parsing the item fails with
an error — regardless of that comment's approval flag (in particular even
when it is not `'1'` and the comment would have been dropped). -/
theorem C9_comment_parse_before_filter (env : TzEnv) (tz : String)
    (amap : List (String × String)) (it : XmlItem) (t : String) (c : XmlComment)
    (ht : it.post_type = some t) (htp : t = "post" ∨ t = "page")
    (hs : it.status = some "publish") (hc : c ∈ it.comments)
    (hbad : c.author = none ∨ c.content = none ∨ c.date = none ∨
      c.approved = none ∨ ∃ dt, c.date = some dt ∧ pyStrptimeYmd dt.data = none) :
    ∃ e, parse_item env tz amap it = .error e := by
  simp only [parse_item, ht, hs, if_true]
  rw [if_pos htp]
  cases hpd : parsePubDate env tz it.pubDate with
  | error e => exact ⟨e, rfl⟩
  | ok pd =>
    obtain ⟨e, he⟩ := @parseComments_mem_error env it.comments c hc
      (@parseCommentOne_bad_error env c hbad)
    exact ⟨e, by simp [he]⟩

/-- An item containing a single *unapproved* comment with an unparseable
date. -/
def c9Item : XmlItem :=
  { title := some "T", post_type := some "post", status := some "publish",
    creator := none, pubDate := none, content := some "",
    comments := [⟨some "Eve", some "spam", some "not a date", some "0"⟩] }

/-- Witness for C9: the unapproved bad-date comment aborts the parse. -/
theorem C9_comment_parse_before_filter_witness :
    ∃ e, parse_item constTzEnv "America/Los_Angeles" [] c9Item = .error e :=
  C9_comment_parse_before_filter constTzEnv "America/Los_Angeles" [] c9Item
    "post" ⟨some "Eve", some "spam", some "not a date", some "0"⟩
    rfl (Or.inl rfl) rfl (by decide)
    (Or.inr (Or.inr (Or.inr (Or.inr ⟨"not a date", rfl, by decide⟩))))

/-! ## C8: comment timestamps do not depend on the timezone argument

Only the item publication date (line 171) uses the caller-supplied `tz`;
the comment pipeline (line 193) always converts to the literal
`'America/Los_Angeles'`.  We prove that two parses of the same input with
different `tz` arguments agree on everything except the publication dates —
in particular on every rendered comment timestamp. -/

def eraseDateItem (ci : ContentItem) : ContentItem := { ci with pub_date := none }

def eraseDateResult : ItemResult → ItemResult
  | .skipped d => .skipped d
  | .kept ci => .kept (eraseDateItem ci)

def eraseDates (r : ParseResult) : ParseResult :=
  ⟨r.posts.map eraseDateItem, r.pages.map eraseDateItem, [], r.diags⟩

/-- The per-item comment lists (the data `preprocess_comments` consumes). -/
def commentsView (r : ParseResult) :
    List (List CommentData) × List (List CommentData) :=
  (r.posts.map ContentItem.comments, r.pages.map ContentItem.comments)

theorem parse_item_erase (env : TzEnv) (tz1 tz2 : String)
    (amap : List (String × String)) (it : XmlItem) :
    (parse_item env tz1 amap it).map eraseDateResult
      = (parse_item env tz2 amap it).map eraseDateResult := by
  cases hpt : it.post_type with
  | none => simp [parse_item, hpt]
  | some t =>
    cases hst : it.status with
    | none => simp [parse_item, hpt, hst]
    | some s =>
      simp only [parse_item, hpt, hst]
      by_cases htp : t = "post" ∨ t = "page"
      · rw [if_pos htp, if_pos htp]
        by_cases hpub : s = "publish"
        · rw [if_pos hpub, if_pos hpub]
          cases hpd : it.pubDate with
          | none => simp [parsePubDate]
          | some txt =>
            by_cases hud : txt = "Unknown Date"
            · simp [parsePubDate, hud]
            · simp only [parsePubDate, if_neg hud]
              cases hr : pyStrptimeRfc txt.data with
              | none => simp
              | some d =>
                simp only
                cases hc : parseComments env it.comments with
                | error e => simp
                | ok cs => simp [Except.map, eraseDateResult, eraseDateItem]
        · rw [if_neg hpub, if_neg hpub]
      · rw [if_neg htp, if_neg htp]

theorem eraseDates_addKept {ci1 ci2 : ContentItem} {r1 r2 : ParseResult}
    (hci : eraseDateItem ci1 = eraseDateItem ci2)
    (hr : eraseDates r1 = eraseDates r2) :
    eraseDates (addKept ci1 r1) = eraseDates (addKept ci2 r2) := by
  have hty : ci1.type = ci2.type := by
    have := congrArg ContentItem.type hci
    simpa [eraseDateItem] using this
  have hposts : r1.posts.map eraseDateItem = r2.posts.map eraseDateItem :=
    congrArg ParseResult.posts hr
  have hpages : r1.pages.map eraseDateItem = r2.pages.map eraseDateItem :=
    congrArg ParseResult.pages hr
  have hdiags : r1.diags = r2.diags := by
    have := congrArg ParseResult.diags hr
    simpa [eraseDates] using this
  unfold addKept
  rw [hty]
  by_cases h1 : ci2.type = "post"
  · rw [if_pos h1, if_pos h1]
    simp [eraseDates, hposts, hpages, hdiags, hci]
  · rw [if_neg h1, if_neg h1]
    by_cases h2 : ci2.type = "page"
    · rw [if_pos h2, if_pos h2]
      simp [eraseDates, hposts, hpages, hdiags, hci]
    · rw [if_neg h2, if_neg h2]
      simp [eraseDates, hposts, hpages, hdiags]

theorem parse_wxr_items_erase (env : TzEnv) (tz1 tz2 : String)
    (amap : List (String × String)) (items : List XmlItem) :
    (parse_wxr_items env tz1 amap items).map eraseDates
      = (parse_wxr_items env tz2 amap items).map eraseDates := by
  induction items with
  | nil => rfl
  | cons it rest ih =>
    have hpe := parse_item_erase env tz1 tz2 amap it
    unfold parse_wxr_items
    cases h1 : parse_item env tz1 amap it with
    | error e =>
      rw [h1] at hpe
      cases h2 : parse_item env tz2 amap it with
      | error e2 =>
        rw [h2] at hpe
        simp only [Except.map] at hpe
        simp only [Except.error.injEq] at hpe
        subst hpe
        rfl
      | ok r2 => rw [h2] at hpe; simp [Except.map] at hpe
    | ok r1 =>
      cases h2 : parse_item env tz2 amap it with
      | error e2 => rw [h1, h2] at hpe; simp [Except.map] at hpe
      | ok r2 =>
        rw [h1, h2] at hpe
        simp only [Except.map, Except.ok.injEq] at hpe
        cases r1 with
        | skipped d1 =>
          cases r2 with
          | kept ci2 => simp [eraseDateResult] at hpe
          | skipped d2 =>
            simp only [eraseDateResult, ItemResult.skipped.injEq] at hpe
            subst hpe
            simp only
            cases hr1 : parse_wxr_items env tz1 amap rest with
            | error e =>
              rw [hr1] at ih
              cases hr2 : parse_wxr_items env tz2 amap rest with
              | error e2 =>
                rw [hr2] at ih
                simp only [Except.map, Except.error.injEq] at ih
                subst ih
                rfl
              | ok rb => rw [hr2] at ih; simp [Except.map] at ih
            | ok ra =>
              cases hr2 : parse_wxr_items env tz2 amap rest with
              | error e2 => rw [hr1, hr2] at ih; simp [Except.map] at ih
              | ok rb =>
                rw [hr1, hr2] at ih
                simp only [Except.map, Except.ok.injEq] at ih
                simp only [Except.map, Except.ok.injEq]
                simp [eraseDates] at ih ⊢
                exact ih
        | kept ci1 =>
          cases r2 with
          | skipped d2 => simp [eraseDateResult] at hpe
          | kept ci2 =>
            simp only [eraseDateResult, ItemResult.kept.injEq] at hpe
            simp only
            cases hr1 : parse_wxr_items env tz1 amap rest with
            | error e =>
              rw [hr1] at ih
              cases hr2 : parse_wxr_items env tz2 amap rest with
              | error e2 =>
                rw [hr2] at ih
                simp only [Except.map, Except.error.injEq] at ih
                subst ih
                rfl
              | ok rb => rw [hr2] at ih; simp [Except.map] at ih
            | ok ra =>
              cases hr2 : parse_wxr_items env tz2 amap rest with
              | error e2 => rw [hr1, hr2] at ih; simp [Except.map] at ih
              | ok rb =>
                rw [hr1, hr2] at ih
                simp only [Except.map, Except.ok.injEq] at ih
                simp only [Except.map, Except.ok.injEq]
                exact eraseDates_addKept hpe ih

theorem commentsView_eraseDates (r : ParseResult) :
    commentsView (eraseDates r) = commentsView r := by
  simp [commentsView, eraseDates, List.map_map, Function.comp, eraseDateItem]

/-- **C8** The rendered comment timestamps (indeed the complete per-item
comment lists of both output sequences) are independent of the
caller-supplied timezone argument: parsing the same input under the same
external timezone environment with two different `tz` arguments yields the
same comment data, converted to the one fixed reference zone
`America/Los_Angeles` named in `parseCommentOne`. -/
theorem C8_comment_tz_independence (env : TzEnv) (amap : List (String × String))
    (items : List XmlItem) (tz1 tz2 : String) :
    (parse_wxr_items env tz1 amap items).map commentsView
      = (parse_wxr_items env tz2 amap items).map commentsView := by
  have h := parse_wxr_items_erase env tz1 tz2 amap items
  cases h1 : parse_wxr_items env tz1 amap items with
  | error e =>
    rw [h1] at h
    cases h2 : parse_wxr_items env tz2 amap items with
    | error e2 =>
      rw [h2] at h
      simp only [Except.map, Except.error.injEq] at h
      subst h
      rfl
    | ok r2 => rw [h2] at h; simp [Except.map] at h
  | ok r1 =>
    cases h2 : parse_wxr_items env tz2 amap items with
    | error e2 => rw [h1, h2] at h; simp [Except.map] at h
    | ok r2 =>
      rw [h1, h2] at h
      simp only [Except.map, Except.ok.injEq] at h
      simp only [Except.map, Except.ok.injEq]
      calc commentsView r1 = commentsView (eraseDates r1) :=
            (commentsView_eraseDates r1).symm
        _ = commentsView (eraseDates r2) := by rw [h]
        _ = commentsView r2 := commentsView_eraseDates r2

/-! ## `create_pdf` / `add_content` / `add_toc_entry` (lines 107-108, 301-380)

The document assembler is embedded as a page-counter state machine.  The
rendering library (fpdf) owns text layout; the only layout fact the claims
depend on is how many page breaks each item's body triggers inside
`write_html`, which is the `bodyPages` field of `RenderItem` (a layout
oracle).  The heading cell (line 348) is issued immediately after
`pdf.add_page()` at the top of a fresh page, before any content that could
break the page, so it renders on the page number captured at line 340; the
model records that page in the `headings` trace.  `insert_toc_placeholder`
(line 316) reserves a fixed number of pages; the exact count only shifts all
page numbers uniformly and plays no role in the claims. -/

/-- One item as the assembler consumes it: its title plus the number of page
breaks its rendered body (content + comments) triggers. -/
structure RenderItem where
  title : String
  bodyPages : Nat
deriving DecidableEq, Repr

/-- Assembler state: current page number, the ToC accumulator
(`self.toc`, line 71), a trace of rendered section headings (title, page),
and the next link handle id (`pdf.add_link()`). -/
structure PdfState where
  pageNo : Nat
  toc : List (String × Nat × Nat)
  headings : List (String × Nat)
  nextLink : Nat
deriving DecidableEq, Repr

def tocEntryTitle (e : String × Nat × Nat) : String := e.1

def tocEntryPage (e : String × Nat × Nat) : Nat := e.2.1

/-- `add_toc_entry` (lines 107-108): append to the ToC accumulator. -/
def add_toc_entry (st : PdfState) (title : String) (page_number link : Nat) :
    PdfState :=
  { st with toc := st.toc ++ [(title, page_number, link)] }

/-- The loop body of `add_content` (lines 331-361): `add_page`, capture
`page_no()`, allocate a link, register the ToC entry (title prefixed with
`"Page: "` for pages), render the heading on the captured page, then render
byline/body/comments (which may add `bodyPages` pages). -/
def emit_item (isPage : Bool) (st : PdfState) (it : RenderItem) : PdfState :=
  let p := st.pageNo + 1
  let st1 : PdfState := { st with pageNo := p, nextLink := st.nextLink + 1 }
  let st2 := add_toc_entry st1
    (if isPage then "Page: " ++ it.title else it.title) p st.nextLink
  let st3 : PdfState := { st2 with headings := st2.headings ++ [(it.title, st2.pageNo)] }
  { st3 with pageNo := st3.pageNo + it.bodyPages }

def add_content (isPage : Bool) (st : PdfState) (items : List RenderItem) :
    PdfState :=
  items.foldl (emit_item isPage) st

/-- The number of pages the reserved table-of-contents block occupies
(`add_page` plus `insert_toc_placeholder(..., pages=3)`, lines 315-316). -/
def tocReservedPages : Nat := 3

/-- `create_pdf` (lines 301-380): title page, reserved ToC pages, all posts,
the "Pages" divider page (not registered in the ToC), then all pages. -/
def create_pdf_assembly (posts pages : List RenderItem) : PdfState :=
  let st0 : PdfState := ⟨0, [], [], 0⟩
  let st1 : PdfState := { st0 with pageNo := st0.pageNo + 1 }
  let st2 : PdfState := { st1 with pageNo := st1.pageNo + tocReservedPages }
  let st3 := add_content false st2 posts
  let st4 : PdfState := { st3 with pageNo := st3.pageNo + 1 }
  add_content true st4 pages

theorem emit_item_toc (b : Bool) (st : PdfState) (it : RenderItem) :
    (emit_item b st it).toc
      = st.toc ++ [(if b then "Page: " ++ it.title else it.title,
          st.pageNo + 1, st.nextLink)] := rfl

theorem emit_item_headings (b : Bool) (st : PdfState) (it : RenderItem) :
    (emit_item b st it).headings = st.headings ++ [(it.title, st.pageNo + 1)] := rfl

theorem emit_item_pageNo (b : Bool) (st : PdfState) (it : RenderItem) :
    (emit_item b st it).pageNo = st.pageNo + 1 + it.bodyPages := rfl

theorem add_content_toc_titles (b : Bool) (items : List RenderItem) :
    ∀ st : PdfState,
      (add_content b st items).toc.map tocEntryTitle
        = st.toc.map tocEntryTitle ++
            items.map (fun it => if b then "Page: " ++ it.title else it.title) := by
  induction items with
  | nil => intro st; simp [add_content]
  | cons it rest ih =>
    intro st
    unfold add_content at ih ⊢
    rw [List.foldl_cons, ih, emit_item_toc]
    simp [tocEntryTitle]

theorem add_content_headings_titles (b : Bool) (items : List RenderItem) :
    ∀ st : PdfState,
      (add_content b st items).headings.map Prod.fst
        = st.headings.map Prod.fst ++ items.map RenderItem.title := by
  induction items with
  | nil => intro st; simp [add_content]
  | cons it rest ih =>
    intro st
    unfold add_content at ih ⊢
    rw [List.foldl_cons, ih, emit_item_headings]
    simp

theorem add_content_pages_eq_headings (b : Bool) (items : List RenderItem) :
    ∀ st : PdfState,
      st.toc.map tocEntryPage = st.headings.map Prod.snd →
      (add_content b st items).toc.map tocEntryPage
        = (add_content b st items).headings.map Prod.snd := by
  induction items with
  | nil => intro st h; simpa [add_content] using h
  | cons it rest ih =>
    intro st h
    unfold add_content at ih ⊢
    rw [List.foldl_cons]
    refine ih _ ?_
    rw [emit_item_toc, emit_item_headings]
    simp [tocEntryPage, h]

theorem add_content_mono (b : Bool) (items : List RenderItem) :
    ∀ st : PdfState,
      List.Pairwise (· ≤ ·) (st.toc.map tocEntryPage) →
      (∀ x ∈ st.toc.map tocEntryPage, x ≤ st.pageNo) →
      List.Pairwise (· ≤ ·) ((add_content b st items).toc.map tocEntryPage) ∧
        ∀ x ∈ (add_content b st items).toc.map tocEntryPage,
          x ≤ (add_content b st items).pageNo := by
  induction items with
  | nil => intro st h1 h2; exact ⟨h1, h2⟩
  | cons it rest ih =>
    intro st h1 h2
    unfold add_content at ih ⊢
    rw [List.foldl_cons]
    refine ih _ ?_ ?_
    · rw [emit_item_toc]
      simp only [List.map_append]
      rw [List.pairwise_append]
      refine ⟨h1, by simp [tocEntryPage], ?_⟩
      intro x hx y hy
      simp [tocEntryPage] at hy
      subst hy
      exact le_trans (h2 x hx) (Nat.le_succ _)
    · rw [emit_item_toc, emit_item_pageNo]
      intro x hx
      simp only [List.map_append, List.mem_append] at hx
      rcases hx with hx | hx
      · exact le_trans (h2 x hx) (by omega)
      · simp [tocEntryPage] at hx
        omega

/-- **C6** Table-of-contents correctness of the assembler: entries are
registered in exactly the order the sections are emitted — all posts (titles
as-is) and then all pages (titles prefixed `"Page: "`), with the pages
divider absent; the heading trace lists the same items in the same order;
each entry's recorded page number equals the page its section heading is
rendered on; and the recorded page numbers are monotonically non-decreasing
in registration order. -/
theorem C6_toc_order_and_pages (posts pages : List RenderItem) :
    (create_pdf_assembly posts pages).toc.map tocEntryTitle
        = posts.map RenderItem.title ++
            pages.map (fun it => "Page: " ++ it.title) ∧
    (create_pdf_assembly posts pages).headings.map Prod.fst
        = posts.map RenderItem.title ++ pages.map RenderItem.title ∧
    (create_pdf_assembly posts pages).toc.map tocEntryPage
        = (create_pdf_assembly posts pages).headings.map Prod.snd ∧
    List.Chain' (· ≤ ·) ((create_pdf_assembly posts pages).toc.map tocEntryPage) := by
  unfold create_pdf_assembly
  refine ⟨?_, ?_, ?_, ?_⟩
  · rw [add_content_toc_titles, add_content_toc_titles]
    simp
  · rw [add_content_headings_titles, add_content_headings_titles]
    simp
  · apply add_content_pages_eq_headings
    apply add_content_pages_eq_headings
    rfl
  · have h3 := add_content_mono false posts ⟨1 + tocReservedPages, [], [], 0⟩
      (by simp) (by simp)
    have h4 := add_content_mono true pages
      { add_content false ⟨1 + tocReservedPages, [], [], 0⟩ posts with
        pageNo := (add_content false ⟨1 + tocReservedPages, [], [], 0⟩ posts).pageNo + 1 }
      h3.1 (fun x hx => le_trans (h3.2 x hx) (Nat.le_succ _))
    exact List.Pairwise.chain' h4.1

end WxrToPdf
